import Mathlib

/-!
Verification of the smscli-client session layer against its specification.

The Python source (`smscliclient/smscliclient.py`) is shallowly embedded
here: pure helpers become Lean functions, the stateful connection handler
becomes explicit state passing over small state records, Python `str` is
modelled as Lean `String`/`List Char` (code points), byte sequences as
`List Nat`, and Python exceptions as `Except PyError`.
JSON (de)serialization of the small flat dicts used by the client
(`json.dumps`/`json.loads` on string/enum-valued dicts) is abstracted as
exact: a wire JSON document is represented by the parsed record itself,
with `Payload.malformed` standing for a byte string on which `json.loads`
raises.
-/

set_option autoImplicit false
set_option maxRecDepth 8192
set_option linter.unusedVariables false

namespace Smscli

/-! ### Constants from the source -/

/-- `MAX_MESSAGE_LEN = 300` (module-level constant). -/
def MAX_MESSAGE_LEN : Nat := 300

/-- `ConnectionHandler.LEN_BYTE_SIZE = 4`. -/
def LEN_BYTE_SIZE : Nat := 4

/-- `ConnectionHandler.ERROR_MESSAGE_TIMEOUT`. -/
def ERROR_MESSAGE_TIMEOUT : String := "Connection timed out"

/-- `ConnectionHandler.ERROR_MESSAGE_REFUSED`. -/
def ERROR_MESSAGE_REFUSED : String := "Connection was refused"

/-- `ConnectionHandler.ERROR_MESSAGE_INVALID`. -/
def ERROR_MESSAGE_INVALID : String := "Invalid command argument"

/-- `ConnectionHandler.ERROR_LOST_CONNECTION`. -/
def ERROR_LOST_CONNECTION : String := "Lost connection"

/-- `ViewMessage.USER_DISPLAY_NAME = 'Me'`. -/
def USER_DISPLAY_NAME : String := "Me"

/-- `MainWindow.MAX_VIEWS = 6`. -/
def MAX_VIEWS : Nat := 6

/-- `socket.errno.ETIMEDOUT` on Linux. -/
def ETIMEDOUT : Nat := 110

/-- `socket.errno.ECONNREFUSED` on Linux. -/
def ECONNREFUSED : Nat := 111

/-! ### Message data model

`ViewMessage.message_type` in the source is either the integer `0`
(`TYPE_LOG`, an internal sentinel that is never equal to any wire string)
or one of the wire strings `'OUTBOX'` / `'INBOX'`.  We model this
Python-typed union faithfully with a two-constructor inductive. -/

/-- The type of `ViewMessage.message_type` values: the internal log
sentinel (`0` in Python, never a string) or a wire string. -/
inductive MType where
  | logT : MType
  | wire : String → MType
deriving DecidableEq

/-- `ViewMessage.TYPE_LOG = 0`. -/
def TYPE_LOG : MType := .logT

/-- `ViewMessage.TYPE_OUTGOING = 'OUTBOX'`. -/
def TYPE_OUTGOING : MType := .wire "OUTBOX"

/-- `ViewMessage.TYPE_INCOMING = 'INBOX'`. -/
def TYPE_INCOMING : MType := .wire "INBOX"

/-- The data fields of `ViewMessage.__init__` (the urwid widget wrapping
is presentation-only and omitted). -/
structure ViewMessage where
  message_time : String
  body : String
  related_view_id : String
  sender_name : String
  message_type : MType
deriving DecidableEq

/-- Python exceptions that the session layer can raise. -/
inductive PyError where
  | jsonDecodeError : PyError
  | keyError : String → PyError
  | valueError : PyError
  | socketError : Nat → PyError
deriving DecidableEq

/-! ### C1: the outbound wire frame (`ConnectionHandler.write_server`)

`write_server(message)` runs
`self.socket.sendall(struct.pack('! i', len(message)))` followed by
`self.socket.sendall(message.encode('utf-8'))`.  We model the byte
sequence that a fully successful call hands to the socket.  `len` on a
Python `str` counts code points; `struct.pack('! i', n)` produces the
4-byte big-endian encoding of `n` (identical to unsigned big-endian for
`0 <= n < 2^31`; larger lengths raise `struct.error` and do not occur in
the claims). -/

/-- UTF-8 encoding of a single code point, as `message.encode('utf-8')`
produces it. -/
def utf8CharBytes (c : Nat) : List Nat :=
  if c < 0x80 then [c]
  else if c < 0x800 then [0xC0 + c / 64, 0x80 + c % 64]
  else if c < 0x10000 then [0xE0 + c / 4096, 0x80 + (c / 64) % 64, 0x80 + c % 64]
  else [0xF0 + c / 262144, 0x80 + (c / 4096) % 64, 0x80 + (c / 64) % 64, 0x80 + c % 64]

/-- `message.encode('utf-8')` over the code points of the string. -/
def utf8Encode (s : List Char) : List Nat :=
  (s.map (fun c => utf8CharBytes c.toNat)).flatten

/-- `struct.pack('! i', n)`: 4-byte big-endian length field. -/
def packLen4 (n : Nat) : List Nat :=
  [n / 2 ^ 24 % 256, n / 2 ^ 16 % 256, n / 2 ^ 8 % 256, n % 256]

/-- `int.from_bytes(bs, 'big')`. -/
def fromBytesBE (bs : List Nat) : Nat :=
  bs.foldl (fun acc b => acc * 256 + b) 0

/-- The bytes a successful `write_server(message)` sends: the packed
`len(message)` (code-point count) followed by the UTF-8 payload. -/
def write_server_frame (message : String) : List Nat :=
  packLen4 message.data.length ++ utf8Encode message.data

/-- C1: the length field of an outbound frame decodes to the code-point
count of the payload string, NOT its UTF-8 byte length. On the one-char
message `"é"` the field says 1 while 2 payload bytes follow, so a frame
carrying any non-ASCII payload is corrupt on the wire. This contradicts
the claim (and the source's own docstring "send message length in
bytes"): the code packs `len(message)`, a character count. -/
theorem write_server_nonascii :
    write_server_frame "é" = [0, 0, 0, 1, 195, 169] ∧
    fromBytesBE ((write_server_frame "é").take 4) = 1 ∧
    ((write_server_frame "é").drop 4).length = 2 := by
  refine ⟨?_, ?_, ?_⟩ <;> decide

/-! ### C2/C5: the outbound message path (`ConnectionHandler.send_message`)

`send_message(message)` splits the text with
`[message[i:i+MAX_MESSAGE_LEN] for i in range(0, len(message), MAX_MESSAGE_LEN)]`
when `len(message) > MAX_MESSAGE_LEN`, builds one `Outgoing` `ViewMessage`
per chunk, calls `write_server` once per chunk (the loop has no break and
no check of `self.connected`), and finally appends every constructed
chunk to the current view with `add_messages`.  `write_server` itself
catches `socket.error`, logs `ERROR_LOST_CONNECTION` and sets
`self.connected = False`; it never re-raises.

The slice comprehension is embedded as a structural recursion taking
`n` elements at a time (fuelled by the input length, which suffices for
any `n > 0`); whether each `sendall` pair succeeds is an oracle
`writeOk : Nat -> Bool` indexed by the running count of `write_server`
calls.  The fixed `time.sleep` between chunks has no modelled effect. -/

/-- One slice `l[i:i+n]` at a time, mirroring
`range(0, len(l), n)`; structurally recursive on a fuel that is always
instantiated with `l.length`. -/
def chunksOfAux (n : Nat) : Nat → List Char → List (List Char)
  | _, [] => []
  | 0, _ :: _ => []
  | fuel + 1, a :: t => ((a :: t).take n) :: chunksOfAux n fuel ((a :: t).drop n)

/-- `[l[i:i+n] for i in range(0, len(l), n)]` for `n > 0`. -/
def chunksOf (n : Nat) (l : List Char) : List (List Char) :=
  chunksOfAux n l.length l

/-- The chunk list `message_chunk` computed by `send_message`. -/
def send_chunks (message : List Char) : List (List Char) :=
  if message.length > MAX_MESSAGE_LEN then chunksOf MAX_MESSAGE_LEN message
  else [message]

/-- The parsed form of the JSON document built by
`JSONHelper.view_message_to_json` / consumed by
`JSONHelper.json_to_view_message` (all four keys optional on the read
side, since an inbound object may lack any of them). -/
structure JsonMessage where
  time : Option String
  body : Option String
  relatedContactId : Option String
  smsMessageType : Option MType
deriving DecidableEq

/-- `JSONHelper.view_message_to_json(view_message)`: the dict with the
four wire keys, serialized by `json.dumps` (abstracted as exact). -/
def view_message_to_json (vm : ViewMessage) : JsonMessage :=
  { time := some vm.message_time
    body := some vm.body
    relatedContactId := some vm.related_view_id
    smsMessageType := some vm.message_type }

/-- State touched by the outbound path: `self.connected`, the number of
`write_server` calls made (to index the success oracle), the payloads
that reached the socket, the log view's transcript, and the current
view's transcript. -/
structure SendState where
  connected : Bool
  writes_attempted : Nat
  sent : List JsonMessage
  log : List String
  view : List ViewMessage
deriving DecidableEq

/-- `ConnectionHandler.write_server` as a state transformer: attempt the
two `sendall`s (success decided by the oracle at the current call
index); on `socket.error` log `ERROR_LOST_CONNECTION` and set
`connected = False` — the exception is swallowed. -/
def write_server (writeOk : Nat → Bool) (payload : JsonMessage) (st : SendState) :
    SendState :=
  if writeOk st.writes_attempted then
    { st with writes_attempted := st.writes_attempted + 1, sent := st.sent ++ [payload] }
  else
    { st with writes_attempted := st.writes_attempted + 1
              connected := false
              log := st.log ++ [ERROR_LOST_CONNECTION] }

/-- The `view_message_chunk` list comprehension: one `Outgoing`
`ViewMessage` per chunk, addressed to the current view. -/
def view_message_chunks (now cur : String) (chunks : List (List Char)) :
    List ViewMessage :=
  chunks.map fun c => ⟨now, String.mk c, cur, USER_DISPLAY_NAME, TYPE_OUTGOING⟩

/-- `ConnectionHandler.send_message(message)`: chunk, build the
`ViewMessage`s, write each chunk in order, then append them all to the
current view (`add_messages`) unconditionally. -/
def send_message (writeOk : Nat → Bool) (now cur : String) (message : List Char)
    (st : SendState) : SendState :=
  let vms := view_message_chunks now cur (send_chunks message)
  let st1 := vms.foldl (fun s vm => write_server writeOk (view_message_to_json vm) s) st
  { st1 with view := st1.view ++ vms }

/-! ### C7: timestamp normalization (`JSONHelper.format_time`)

`format_time(remote_time)` is
`datetime.strptime(remote_time, '%I:%M:%S %p').strftime('%H:%M:%S')`.
CPython's `_strptime` compiles the format to a regex
(`%I ↦ (1[0-2]|0[1-9]|[1-9])`, `%M ↦ ([0-5]\d|\d)`,
`%S ↦ (6[0-1]|[0-5]\d|\d)`, `%p ↦ (AM|PM)` case-insensitively, literal
`:` and space in between), matches it at the start of the string with
backtracking over the alternations, raises `ValueError` when the regex
fails or when unconverted data remains, and finally builds a `datetime`
(which rejects leap seconds 60-61).  The alternation lists below are in
the regex's alternation order and the chain of `findSome?` calls
reproduces the backtracking. -/

/-- Numeric value of a digit character. -/
def digitVal (c : Char) : Nat := c.toNat - 48

/-- The `%I` alternatives `(1[0-2]|0[1-9]|[1-9])` with the unconsumed
remainder of the input. -/
def altsI : List Char → List (Nat × List Char)
  | a :: b :: t =>
    (if a = '1' ∧ '0' ≤ b ∧ b ≤ '2' then [(10 + digitVal b, t)] else []) ++
    (if a = '0' ∧ '1' ≤ b ∧ b ≤ '9' then [(digitVal b, t)] else []) ++
    (if '1' ≤ a ∧ a ≤ '9' then [(digitVal a, b :: t)] else [])
  | [a] => if '1' ≤ a ∧ a ≤ '9' then [(digitVal a, [])] else []
  | [] => []

/-- The `%M` alternatives `([0-5]\d|\d)`. -/
def altsM : List Char → List (Nat × List Char)
  | a :: b :: t =>
    (if '0' ≤ a ∧ a ≤ '5' ∧ b.isDigit then [(10 * digitVal a + digitVal b, t)] else []) ++
    (if a.isDigit then [(digitVal a, b :: t)] else [])
  | [a] => if a.isDigit then [(digitVal a, [])] else []
  | [] => []

/-- The `%S` alternatives `(6[0-1]|[0-5]\d|\d)`. -/
def altsS : List Char → List (Nat × List Char)
  | a :: b :: t =>
    (if a = '6' ∧ '0' ≤ b ∧ b ≤ '1' then [(60 + digitVal b, t)] else []) ++
    (if '0' ≤ a ∧ a ≤ '5' ∧ b.isDigit then [(10 * digitVal a + digitVal b, t)] else []) ++
    (if a.isDigit then [(digitVal a, b :: t)] else [])
  | [a] => if a.isDigit then [(digitVal a, [])] else []
  | [] => []

/-- The `%p` directive: `AM`/`PM`, case-insensitive.  Returns `true` for
PM. -/
def parseAmPm : List Char → Option (Bool × List Char)
  | a :: b :: t =>
    if (a = 'A' ∨ a = 'a') ∧ (b = 'M' ∨ b = 'm') then some (false, t)
    else if (a = 'P' ∨ a = 'p') ∧ (b = 'M' ∨ b = 'm') then some (true, t)
    else none
  | _ => none

/-- A literal character of the format string. -/
def expectChar (c : Char) : List Char → Option (List Char)
  | a :: t => if a = c then some t else none
  | [] => none

/-- First alternative (in regex order) on which the continuation
matches — the backtracking discipline of the compiled format regex. -/
def firstSome {α β : Type} (l : List α) (f : α → Option β) : Option β :=
  match l with
  | [] => none
  | a :: t =>
    match f a with
    | some b => some b
    | none => firstSome t f

/-- Matches `%S ' ' %p` with backtracking over the `%S` alternatives. -/
def matchTail2 (l : List Char) : Option (Nat × Bool × List Char) :=
  firstSome (altsS l) fun sr =>
    (expectChar ' ' sr.2).bind fun l2 =>
      (parseAmPm l2).map fun pr => (sr.1, pr.1, pr.2)

/-- Matches `%M ':' %S ' ' %p`. -/
def matchTail1 (l : List Char) : Option (Nat × Nat × Bool × List Char) :=
  firstSome (altsM l) fun mr =>
    (expectChar ':' mr.2).bind fun l2 =>
      (matchTail2 l2).map fun t => (mr.1, t)

/-- Matches the whole `'%I:%M:%S %p'` pattern, returning
`(hour12, minute, second, isPM, unconverted rest)`. -/
def matchRemoteFormat (l : List Char) : Option (Nat × Nat × Nat × Bool × List Char) :=
  firstSome (altsI l) fun ir =>
    (expectChar ':' ir.2).bind fun l2 =>
      (matchTail1 l2).map fun t => (ir.1, t)

/-- `datetime.strptime(s, '%I:%M:%S %p')` reduced to the 24-hour
`(hour, minute, second)` triple; `none` is a `ValueError` (regex
mismatch, unconverted trailing data, or a leap second rejected by the
`datetime` constructor). -/
def strptimeRemote (s : String) : Option (Nat × Nat × Nat) :=
  match matchRemoteFormat s.data with
  | none => none
  | some (h12, m, sec, pm, rest) =>
    if rest = [] then
      if sec ≤ 59 then
        some (if pm then (if h12 = 12 then 12 else h12 + 12)
              else (if h12 = 12 then 0 else h12), m, sec)
      else none
    else none

/-- Two zero-padded decimal digits, as `strftime` renders each of
`%H`, `%M`, `%S` for in-range values. -/
def two (n : Nat) : List Char := [Nat.digitChar (n / 10), Nat.digitChar (n % 10)]

/-- `strftime('%H:%M:%S')` on a time with the given components (this is
also the shape of every client-side timestamp,
`datetime.now().time().strftime(ViewMessage.TIME_FORMAT_STR)`). -/
def fmtHMS (h m s : Nat) : String :=
  String.mk (two h ++ ':' :: two m ++ ':' :: two s)

/-- `JSONHelper.format_time`: parse with the remote 12-hour format, then
render in the client's 24-hour format; `none` models the `ValueError`
that `strptime` raises on any other input. -/
def format_time (remote : String) : Option String :=
  (strptimeRemote remote).map fun t => fmtHMS t.1 t.2.1 t.2.2

/-! ### C3/C6/C7: JSON decode and the view router

`state.contact_views` is a Python dict (insertion-ordered, unique keys);
it is embedded as an association list with the dict operations: key
membership, lookup, insertion of a fresh key at the end, and in-place
mutation of the stored `ContactView` object (`add_message` appends to
its message list). -/

/-- The data fields of `ContactView.__init__` (urwid widgets omitted);
`content` is the view's ordered message sequence. -/
structure ContactView where
  view_id : String
  display_name : String
  address : String
  content : List ViewMessage
deriving DecidableEq

/-- The `state.contact_views` dict. -/
abbrev Registry := List (String × ContactView)

/-- A payload handed to `json.loads`: either a string it rejects, or a
JSON object with whichever of the four wire keys are present. -/
inductive Payload where
  | malformed : Payload
  | obj : JsonMessage → Payload

/-- Python dict subscription `d[k]`: `KeyError` when absent. -/
def getField {α : Type} (v : Option α) (k : String) : Except PyError α :=
  match v with
  | some x => .ok x
  | none => .error (.keyError k)

/-- Dict lookup `d.get(k)` / `d[k]` on the registry (keys are unique in
a Python dict, so first-match lookup is exact). -/
def dictGet (r : Registry) (k : String) : Option ContactView :=
  match r with
  | [] => none
  | p :: rest => if p.1 = k then some p.2 else dictGet rest k

/-- The display-name branch of `json_to_view_message`: `'Me'` for an
outgoing message, otherwise the stored contact's display name when the
id is known, else the id itself. -/
def decode_display_name (contact_views : Registry) (o : JsonMessage) (ty : MType) :
    Except PyError String :=
  if ty = TYPE_OUTGOING then pure USER_DISPLAY_NAME
  else do
    let cid ← getField o.relatedContactId "relatedContactId"
    match dictGet contact_views cid with
    | some cv => pure cv.display_name
    | none => pure cid

/-- `JSONHelper.json_to_view_message(json_view_message)`.  Reads the
fields in the source's evaluation order: `smsMessageType` (for the
display-name branch), then `relatedContactId` inside the non-outgoing
branch, then the constructor arguments `time` (through `format_time`,
whose failure is a `ValueError`), `body`, `relatedContactId`,
`smsMessageType`.  No exception is caught. -/
def json_to_view_message (contact_views : Registry) : Payload → Except PyError ViewMessage
  | .malformed => .error .jsonDecodeError
  | .obj o => do
    let ty ← getField o.smsMessageType "smsMessageType"
    let display_name ← decode_display_name contact_views o ty
    let t ← getField o.time "time"
    let ft ← match format_time t with
      | some ft => Except.ok ft
      | none => Except.error .valueError
    let b ← getField o.body "body"
    let cid ← getField o.relatedContactId "relatedContactId"
    Except.ok ⟨ft, b, cid, display_name, ty⟩

/-- `view_message.related_view_id in state.contact_views`. -/
def dictMember (r : Registry) (k : String) : Bool :=
  (dictGet r k).isSome

/-- `contact_view.add_message(view_message)`: mutate the `ContactView`
object stored under `k` by appending the message (keys are unique in the
Python dict, so exactly the entry for `k` changes). -/
def add_message_to : Registry → String → ViewMessage → Registry
  | [], _, _ => []
  | p :: rest, k, vm =>
    (if p.1 = k then (p.1, { p.2 with content := p.2.content ++ [vm] }) else p)
      :: add_message_to rest k vm

/-- State touched by the router: the registry and the set of shown
views (as the ordered key list of `main_window.shown_views`). -/
structure AppState where
  contact_views : Registry
  shown_views : List String

/-- The routing body of `ConnectionHandler.receive_message` after the
decode: create a missing contact (keyed by the id, display name and
address both equal to the id, starting empty), append the message to
that contact's view, and show the view if it is not shown
(`MainWindow.add_new_view`, which refuses beyond `MAX_VIEWS`).  The
desktop notification and redraw are external effects with no modelled
state. -/
def route_message (vm : ViewMessage) (st : AppState) : AppState :=
  let cviews :=
    if dictMember st.contact_views vm.related_view_id then st.contact_views
    else st.contact_views ++
      [(vm.related_view_id,
        ⟨vm.related_view_id, vm.related_view_id, vm.related_view_id, []⟩)]
  let cviews2 := add_message_to cviews vm.related_view_id vm
  let shown :=
    if vm.related_view_id ∈ st.shown_views then st.shown_views
    else if st.shown_views.length ≤ MAX_VIEWS then st.shown_views ++ [vm.related_view_id]
    else st.shown_views
  { contact_views := cviews2, shown_views := shown }

/-- `ConnectionHandler.receive_message(message)`: decode, then route.
The body contains no `try`, so a decode exception propagates to the
caller. -/
def receive_message (p : Payload) (st : AppState) : Except PyError AppState :=
  (json_to_view_message st.contact_views p).map fun vm => route_message vm st

/-- The frame-handling skeleton of `ConnectionHandler.read_loop`
(`while self.connected: ... if json_message: self.receive_message(...)`)
over an abstract sequence of decoded nonempty frames: each frame is
handed to `receive_message`; an exception raised there escapes the loop
(killing the reader thread) and later frames are never handled. -/
def process_frames (ps : List Payload) (st : AppState) : Except PyError AppState :=
  match ps with
  | [] => .ok st
  | p :: rest =>
    match receive_message p st with
    | .error e => .error e
    | .ok st1 => process_frames rest st1

/-! ### C4/C8/C9/C10: socket lifecycle

`NetState` carries the fields of the connection handler observable by
the lifecycle claims: the bytes the peer will deliver before closing
(`stream` — `recv(n, MSG_WAITALL)` blocks for `n` bytes and returns
fewer only at end of stream), `self.connected`, counters for
`socket.shutdown` / `socket.close` calls, and the log view's
transcript. -/

structure NetState where
  stream : List Nat
  connected : Bool
  closes : Nat
  shutdowns : Nat
  log : List String
deriving DecidableEq

/-- `ConnectionHandler.read_server`: read 4 length bytes
(`recv(4, MSG_WAITALL)`), decode big-endian (`int.from_bytes` gives 0 on
an empty read), read that many payload bytes, and treat an empty result
as a lost connection (`if not message: raise socket.error`, caught below
by logging `ERROR_LOST_CONNECTION` and clearing `connected`).  Returns
the message bytes together with the new state; the UTF-8 decode to a
Python string is kept at the byte level, emptiness being all the
lifecycle claims inspect. -/
def read_server (st : NetState) : List Nat × NetState :=
  let lenBytes := st.stream.take LEN_BYTE_SIZE
  let rest := st.stream.drop LEN_BYTE_SIZE
  let length := fromBytesBE lenBytes
  let message := rest.take length
  let st2 : NetState := { st with stream := rest.drop length }
  if message = [] then
    ([], { st2 with connected := false, log := st2.log ++ [ERROR_LOST_CONNECTION] })
  else (message, st2)

theorem read_server_shrinks (st : NetState) (h : (read_server st).1 ≠ []) :
    (read_server st).2.stream.length < st.stream.length := by
  unfold read_server at *
  by_cases hm : (st.stream.drop LEN_BYTE_SIZE).take
      (fromBytesBE (st.stream.take LEN_BYTE_SIZE)) = []
  · simp [hm] at h
  · simp only [hm, if_neg, ite_false]
    have h1 : st.stream.drop LEN_BYTE_SIZE ≠ [] := by
      intro he; simp [he] at hm
    have h2 : fromBytesBE (st.stream.take LEN_BYTE_SIZE) ≠ 0 := by
      intro hz; simp [hz] at hm
    have h3 : LEN_BYTE_SIZE < st.stream.length := by
      by_contra hle
      exact h1 (List.drop_eq_nil_of_le (by omega))
    simp only [List.length_drop]
    have : LEN_BYTE_SIZE = 4 := rfl
    omega

/-- `ConnectionHandler.read_loop` (the `while self.connected` loop):
read a frame; an empty result means `read_server` has already flipped
`connected` off, so the loop exits (the final divider refresh and redraw
are external UI calls wrapped in `try/except AssertionError`); a
nonempty frame is handed to the application handler (in the source,
`receive_message` on the decoded string), whose exception — if any —
escapes the loop.  Total: the peer's byte stream is finite and each
nonempty frame consumes at least one byte of it. -/
def read_loop {α : Type} (handle : List Nat → α → Except PyError α)
    (net : NetState) (app : α) : Except PyError (NetState × α) :=
  if net.connected then
    if hmsg : (read_server net).1 = [] then .ok ((read_server net).2, app)
    else
      match handle (read_server net).1 app with
      | .error e => .error e
      | .ok app1 => read_loop handle (read_server net).2 app1
  else .ok (net, app)
termination_by net.stream.length
decreasing_by exact read_server_shrinks net hmsg

/-- `CommandHandler.do_disconnect`: only when connected, clear the flag,
shut down both directions and close the socket; otherwise do nothing. -/
def do_disconnect (st : NetState) : NetState :=
  if st.connected then
    { st with connected := false, shutdowns := st.shutdowns + 1, closes := st.closes + 1 }
  else st

/-- The cleanup half of the module-level `shutdown()` (which then raises
`urwid.ExitMainLoop` to quit the process): identical guard and socket
teardown as `do_disconnect`. -/
def shutdown_cleanup (st : NetState) : NetState :=
  if st.connected then
    { st with connected := false, shutdowns := st.shutdowns + 1, closes := st.closes + 1 }
  else st

/-- `ConnectionHandler.connect(ip_address, port)`.  `valid` is the
outcome of `is_valid_ipv4_address(ip) and is_valid_port(port)` (the
first delegates to the C `inet_aton`); `outcome` is what
`socket.connect` does: `none` for success, `some errno` for a raised
`socket.error`.  Timeout and refusal are logged with
`connected = False`; any other `socket.error` hits the bare `raise`
(the generic-message branch is commented out in the source) and
propagates to the caller. -/
def connect (valid : Bool) (outcome : Option Nat) (st : NetState) :
    Except PyError NetState :=
  if valid then
    match outcome with
    | none => .ok { st with connected := true }
    | some errno =>
      if errno = ETIMEDOUT then
        .ok { st with connected := false, log := st.log ++ [ERROR_MESSAGE_TIMEOUT] }
      else if errno = ECONNREFUSED then
        .ok { st with connected := false, log := st.log ++ [ERROR_MESSAGE_REFUSED] }
      else .error (.socketError errno)
  else .ok { st with connected := false, log := st.log ++ [ERROR_MESSAGE_INVALID] }

/-! ### Chunking lemmas -/

theorem chunksOfAux_flatten (n : Nat) (hn : 0 < n) :
    ∀ (fuel : Nat) (l : List Char), l.length ≤ fuel →
      (chunksOfAux n fuel l).flatten = l := by
  intro fuel
  induction fuel with
  | zero =>
    intro l hl
    have : l = [] := List.eq_nil_of_length_eq_zero (by omega)
    subst this; simp [chunksOfAux]
  | succ fuel ih =>
    intro l hl
    cases l with
    | nil => simp [chunksOfAux]
    | cons a t =>
      have hdrop : ((a :: t).drop n).length ≤ fuel := by
        simp only [List.length_drop, List.length_cons]
        simp only [List.length_cons] at hl
        omega
      simp only [chunksOfAux, List.flatten_cons, ih _ hdrop, List.take_append_drop]

theorem chunksOfAux_getElem (n : Nat) (hn : 0 < n) :
    ∀ (fuel : Nat) (l : List Char), l.length ≤ fuel →
      ∀ (i : Nat) (hi : i < (chunksOfAux n fuel l).length),
        (chunksOfAux n fuel l)[i] = (l.drop (n * i)).take n := by
  intro fuel
  induction fuel with
  | zero =>
    intro l hl i hi
    have : l = [] := List.eq_nil_of_length_eq_zero (by omega)
    subst this; simp [chunksOfAux] at hi
  | succ fuel ih =>
    intro l hl i hi
    cases l with
    | nil => simp [chunksOfAux] at hi
    | cons a t =>
      have hdrop : ((a :: t).drop n).length ≤ fuel := by
        simp only [List.length_drop, List.length_cons]
        simp only [List.length_cons] at hl
        omega
      cases i with
      | zero => simp [chunksOfAux]
      | succ i =>
        have hi' : i < (chunksOfAux n fuel ((a :: t).drop n)).length := by
          simpa [chunksOfAux] using hi
        have hrec := ih _ hdrop i hi'
        have hidx : ((a :: t).drop n).drop (n * i) = (a :: t).drop (n * (i + 1)) := by
          rw [List.drop_drop]
          congr 1
          ring
        simp only [chunksOfAux, List.getElem_cons_succ, hrec, hidx]

theorem chunksOfAux_length (n : Nat) (hn : 0 < n) :
    ∀ (fuel : Nat) (l : List Char), l.length ≤ fuel →
      (chunksOfAux n fuel l).length = (l.length + n - 1) / n := by
  intro fuel
  induction fuel with
  | zero =>
    intro l hl
    have : l = [] := List.eq_nil_of_length_eq_zero (by omega)
    subst this
    rw [show chunksOfAux n 0 ([] : List Char) = [] from rfl]
    rw [show ([] : List Char).length = 0 from rfl, Nat.div_eq_of_lt (by omega)]
    rfl
  | succ fuel ih =>
    intro l hl
    cases l with
    | nil =>
      rw [show chunksOfAux n (fuel + 1) ([] : List Char) = [] from rfl]
      rw [show ([] : List Char).length = 0 from rfl, Nat.div_eq_of_lt (by omega)]
      rfl
    | cons a t =>
      have hdrop : ((a :: t).drop n).length ≤ fuel := by
        simp only [List.length_drop, List.length_cons]
        simp only [List.length_cons] at hl
        omega
      have hL : ((a :: t).drop n).length = t.length + 1 - n := by
        simp [List.length_drop]
      have hrec := ih _ hdrop
      rw [hL] at hrec
      simp only [chunksOfAux, List.length_cons, hrec]
      rcases le_or_lt (t.length + 1) n with h | h
      · have h1 : t.length + 1 - n = 0 := by omega
        rw [h1, Nat.div_eq_of_lt (by omega),
          show t.length + 1 + n - 1 = t.length + n from by omega,
          Nat.add_div_right _ hn, Nat.div_eq_of_lt (by omega)]
      · have h2 : t.length + 1 + n - 1 = (t.length + 1 - n + n - 1) + n := by omega
        rw [h2, Nat.add_div_right _ hn]

/-- C5: `send_message`'s chunking.  Every text splits into consecutive
slices of `MAX_MESSAGE_LEN` code points whose in-order concatenation is
the original text; a text of at most `MAX_MESSAGE_LEN` code points stays
a single chunk; a text of exactly `3 * MAX_MESSAGE_LEN` gives exactly 3
chunks of exactly `MAX_MESSAGE_LEN` each; and each chunk becomes one
`Outgoing` `ViewMessage` whose body is that chunk. -/
theorem send_message_chunking (l : List Char) :
    (send_chunks l).flatten = l
    ∧ (l.length ≤ MAX_MESSAGE_LEN → send_chunks l = [l])
    ∧ (l.length = 3 * MAX_MESSAGE_LEN →
        (send_chunks l).length = 3 ∧ ∀ c ∈ send_chunks l, c.length = MAX_MESSAGE_LEN)
    ∧ (∀ (i : Nat) (hi : i < (send_chunks l).length),
        (send_chunks l)[i] = (l.drop (MAX_MESSAGE_LEN * i)).take MAX_MESSAGE_LEN)
    ∧ (∀ now cur : String,
        (view_message_chunks now cur (send_chunks l)).map ViewMessage.body
          = (send_chunks l).map String.mk
        ∧ ∀ vm ∈ view_message_chunks now cur (send_chunks l),
            vm.message_type = TYPE_OUTGOING) := by
  have hmax : 0 < MAX_MESSAGE_LEN := by decide
  have hslice : ∀ (i : Nat) (hi : i < (send_chunks l).length),
      (send_chunks l)[i] = (l.drop (MAX_MESSAGE_LEN * i)).take MAX_MESSAGE_LEN := by
    intro i hi
    by_cases hgt : l.length > MAX_MESSAGE_LEN
    · have h1 : send_chunks l = chunksOfAux MAX_MESSAGE_LEN l.length l := by
        unfold send_chunks chunksOf
        rw [if_pos hgt]
      simp only [h1] at hi ⊢
      exact chunksOfAux_getElem _ hmax _ _ le_rfl i hi
    · have h1 : send_chunks l = [l] := by
        unfold send_chunks
        rw [if_neg hgt]
      simp only [h1] at hi ⊢
      simp only [List.length_singleton] at hi
      have hi0 : i = 0 := by omega
      subst hi0
      simp [List.take_of_length_le (show l.length ≤ MAX_MESSAGE_LEN by omega)]
  refine ⟨?_, ?_, ?_, hslice, ?_⟩
  · unfold send_chunks
    split
    · exact chunksOfAux_flatten _ hmax _ _ le_rfl
    · simp
  · intro hle
    unfold send_chunks
    rw [if_neg (by omega)]
  · intro hlen
    have hcount : (send_chunks l).length = 3 := by
      have h1 : send_chunks l = chunksOfAux MAX_MESSAGE_LEN l.length l := by
        unfold send_chunks chunksOf
        rw [if_pos (by rw [hlen]; decide)]
      rw [h1, chunksOfAux_length _ hmax _ _ le_rfl, hlen]
      decide
    refine ⟨hcount, ?_⟩
    intro c hc
    rw [List.mem_iff_getElem] at hc
    obtain ⟨i, hi, hgi⟩ := hc
    have hi3 : i < 3 := hcount ▸ hi
    rw [← hgi, hslice i hi]
    simp only [List.length_take, List.length_drop, hlen]
    simp only [MAX_MESSAGE_LEN] at hi3 ⊢
    omega
  · intro now cur
    constructor
    · simp only [view_message_chunks, List.map_map]
      rfl
    · intro vm hvm
      simp only [view_message_chunks, List.mem_map] at hvm
      obtain ⟨c, _, hc⟩ := hvm
      rw [← hc]

/-- Witness for C5 at concrete inputs: a 900-char text gives 3 chunks,
and a 2-char text stays one chunk. -/
theorem send_message_chunking_witness :
    (send_chunks (List.replicate (3 * MAX_MESSAGE_LEN) 'a')).length = 3
    ∧ send_chunks ['h', 'i'] = [['h', 'i']] := by
  refine ⟨((send_message_chunking _).2.2.1 (by simp)).1,
    (send_message_chunking ['h', 'i']).2.1 (by decide)⟩

/-! ### C2: write failure during a chunked send -/

theorem write_server_wa (writeOk : Nat → Bool) (p : JsonMessage) (st : SendState) :
    (write_server writeOk p st).writes_attempted = st.writes_attempted + 1 := by
  unfold write_server
  split <;> rfl

theorem write_server_view (writeOk : Nat → Bool) (p : JsonMessage) (st : SendState) :
    (write_server writeOk p st).view = st.view := by
  unfold write_server
  split <;> rfl

theorem write_server_foldl_attempts (writeOk : Nat → Bool) :
    ∀ (vms : List ViewMessage) (st : SendState),
      (vms.foldl (fun s vm => write_server writeOk (view_message_to_json vm) s)
          st).writes_attempted
        = st.writes_attempted + vms.length := by
  intro vms
  induction vms with
  | nil => intro st; simp
  | cons vm vms ih =>
    intro st
    simp only [List.foldl_cons, ih, write_server_wa, List.length_cons]
    omega

theorem write_server_foldl_view (writeOk : Nat → Bool) :
    ∀ (vms : List ViewMessage) (st : SendState),
      (vms.foldl (fun s vm => write_server writeOk (view_message_to_json vm) s) st).view
        = st.view := by
  intro vms
  induction vms with
  | nil => intro st; simp
  | cons vm vms ih =>
    intro st
    simp only [List.foldl_cons, ih, write_server_view]

theorem write_server_foldl_keeps_disconnected (writeOk : Nat → Bool) :
    ∀ (vms : List ViewMessage) (st : SendState), st.connected = false →
      (vms.foldl (fun s vm => write_server writeOk (view_message_to_json vm) s)
          st).connected = false := by
  intro vms
  induction vms with
  | nil => intro st h; exact h
  | cons vm vms ih =>
    intro st h
    simp only [List.foldl_cons]
    apply ih
    unfold write_server
    split
    · exact h
    · rfl

theorem write_server_foldl_fail (writeOk : Nat → Bool) :
    ∀ (vms : List ViewMessage) (st : SendState) (k : Nat), k < vms.length →
      writeOk (st.writes_attempted + k) = false →
      (vms.foldl (fun s vm => write_server writeOk (view_message_to_json vm) s)
          st).connected = false := by
  intro vms
  induction vms with
  | nil => intro st k hk hfail; simp at hk
  | cons vm vms ih =>
    intro st k hk hfail
    simp only [List.foldl_cons]
    cases k with
    | zero =>
      apply write_server_foldl_keeps_disconnected
      unfold write_server
      rw [if_neg (by simpa using hfail)]
    | succ k =>
      apply ih _ k
      · simpa using Nat.lt_of_succ_lt_succ (by simpa using hk)
      · rw [write_server_wa]
        rw [show st.writes_attempted + 1 + k = st.writes_attempted + (k + 1) from by omega]
        exact hfail

/-- C2, amended: if the `write_server` call for chunk `k` (`k < n`)
fails, every constructed chunk is still recorded in the current view's
transcript and the connection flag ends up `false` — but, contrary to
the claim, `send_message`'s loop does not abort: `write_server` is still
attempted for every one of the `n` chunks. -/
theorem send_message_failure_behavior (writeOk : Nat → Bool) (now cur : String)
    (message : List Char) (st : SendState) (k : Nat)
    (hk : k < (send_chunks message).length)
    (hfail : writeOk (st.writes_attempted + k) = false) :
    (send_message writeOk now cur message st).view
      = st.view ++ view_message_chunks now cur (send_chunks message)
    ∧ (send_message writeOk now cur message st).connected = false
    ∧ (send_message writeOk now cur message st).writes_attempted
      = st.writes_attempted + (send_chunks message).length := by
  have hlen : (view_message_chunks now cur (send_chunks message)).length
      = (send_chunks message).length := by
    unfold view_message_chunks
    exact List.length_map _ _
  refine ⟨?_, ?_, ?_⟩
  · simp only [send_message, write_server_foldl_view]
  · simp only [send_message]
    exact write_server_foldl_fail writeOk _ st k (by rw [hlen]; exact hk) hfail
  · simp only [send_message, write_server_foldl_attempts, hlen]

/-- Witness for C2's amended theorem: first write fails on a 301-char
(two-chunk) message starting from a fresh connected state. -/
theorem send_message_failure_behavior_witness :
    (send_message (fun _ => false) "10:00:00" "555"
        (List.replicate 301 'y') ⟨true, 0, [], [], []⟩).connected = false
    ∧ (send_message (fun _ => false) "10:00:00" "555"
        (List.replicate 301 'y') ⟨true, 0, [], [], []⟩).writes_attempted
      = 0 + (send_chunks (List.replicate 301 'y')).length := by
  have h := send_message_failure_behavior (fun _ => false) "10:00:00" "555"
    (List.replicate 301 'y') ⟨true, 0, [], [], []⟩ 0 (by decide) (by decide)
  exact ⟨h.2.1, h.2.2⟩

/-- C2, counterexample to the claim as stated: a 601-char message gives
3 chunks; the oracle fails exactly the second `write_server` call
(index 1), yet all 3 chunks are written-to (3 attempts, not the claimed
2), while indeed all 3 chunks land in the transcript and the state ends
disconnected. -/
theorem send_message_no_abort_counterexample :
    (send_message (fun i => decide (i ≠ 1)) "12:00:00" "555"
        (List.replicate 601 'x') ⟨true, 0, [], [], []⟩).writes_attempted = 3
    ∧ (send_message (fun i => decide (i ≠ 1)) "12:00:00" "555"
        (List.replicate 601 'x') ⟨true, 0, [], [], []⟩).connected = false
    ∧ (send_message (fun i => decide (i ≠ 1)) "12:00:00" "555"
        (List.replicate 601 'x') ⟨true, 0, [], [], []⟩).view.length = 3 := by
  refine ⟨by decide, by decide, by decide⟩

/-! ### C4: connect-time error handling -/

/-- C4, amended: with syntactically valid arguments, a connect-time
timeout or refusal is caught inside `connect`, logged with its
distinguished message, and leaves `connected = false`; but any other
socket error hits the bare `raise` (the generic-failure branch is
commented out in the source) and propagates to the caller as an
uncaught exception.  Invalid arguments are logged with
`connected = false` before any I/O. -/
theorem connect_error_handling (st : NetState) (errno : Nat) :
    connect true none st = .ok { st with connected := true }
    ∧ connect true (some ETIMEDOUT) st
      = .ok { st with connected := false, log := st.log ++ [ERROR_MESSAGE_TIMEOUT] }
    ∧ connect true (some ECONNREFUSED) st
      = .ok { st with connected := false, log := st.log ++ [ERROR_MESSAGE_REFUSED] }
    ∧ (errno ≠ ETIMEDOUT → errno ≠ ECONNREFUSED →
        connect true (some errno) st = .error (.socketError errno))
    ∧ (∀ outcome : Option Nat, connect false outcome st
        = .ok { st with connected := false, log := st.log ++ [ERROR_MESSAGE_INVALID] }) := by
  refine ⟨rfl, by simp [connect], by simp [connect, ECONNREFUSED, ETIMEDOUT], ?_, fun _ => rfl⟩
  intro h1 h2
  simp only [connect, if_true, if_neg h1, if_neg h2]

/-- Witness for C4's amended theorem: a timeout is logged and handled,
while errno 99 (`EADDRNOTAVAIL`, neither timeout nor refusal) escapes
as an uncaught `socket.error`. -/
theorem connect_error_handling_witness :
    connect true (some ETIMEDOUT) ⟨[], false, 0, 0, []⟩
      = .ok ⟨[], false, 0, 0, [ERROR_MESSAGE_TIMEOUT]⟩
    ∧ connect true (some 99) ⟨[], false, 0, 0, []⟩ = .error (.socketError 99) := by
  have h := connect_error_handling ⟨[], false, 0, 0, []⟩ 99
  exact ⟨h.2.1, h.2.2.2.1 (by decide) (by decide)⟩

/-- C4, counterexample to the claim as stated: `ECONNRESET` (errno 104)
raised during the connect attempt is NOT handled inside `connect` — it
propagates as an uncaught exception instead of producing the generic
connection-failure result. -/
theorem connect_uncaught_counterexample :
    connect true (some 104) ⟨[], false, 0, 0, []⟩ = .error (.socketError 104) := rfl

/-! ### C3: malformed frames in the receive path -/

/-- C3, amended: a malformed-JSON frame or a frame missing a required
field makes `receive_message` raise (`json.JSONDecodeError` /
`KeyError`); nothing is caught, so the exception propagates out of the
receive loop — the failure is not logged, the loop does not continue,
and subsequent frames are never handled. -/
theorem receive_error_propagates (st : AppState) (rest : List Payload) :
    (∀ (p : Payload) (e : PyError), receive_message p st = .error e →
      process_frames (p :: rest) st = .error e)
    ∧ receive_message .malformed st = .error .jsonDecodeError
    ∧ (∀ o : JsonMessage, o.smsMessageType = none →
        receive_message (.obj o) st = .error (.keyError "smsMessageType")) := by
  refine ⟨?_, rfl, ?_⟩
  · intro p e h
    unfold process_frames
    rw [h]
  · intro o h
    simp [receive_message, json_to_view_message, getField, h, Except.map, Bind.bind,
      Except.bind]

/-- Witness for C3's amended theorem: one malformed frame kills the
loop with the decode exception. -/
theorem receive_error_propagates_witness :
    process_frames [Payload.malformed] ⟨[], []⟩ = .error .jsonDecodeError :=
  (receive_error_propagates ⟨[], []⟩ []).1 .malformed .jsonDecodeError rfl

/-- C3, counterexample to the claim as stated: a malformed frame (resp.
a frame missing `smsMessageType`) does not log-and-continue — the loop
result is the escaped exception, and the following well-formed frame is
never processed. -/
theorem receive_malformed_counterexample :
    process_frames
        [.malformed, .obj ⟨some "01:02:03 PM", some "hi", some "555", some TYPE_INCOMING⟩]
        ⟨[], []⟩ = .error .jsonDecodeError
    ∧ process_frames [.obj ⟨none, none, none, none⟩] ⟨[], []⟩
        = .error (.keyError "smsMessageType") :=
  ⟨rfl, rfl⟩

/-! ### C9/C10: clean shutdown and zero-length frames -/

theorem read_server_empty_stream (st : NetState) (h : st.stream = []) :
    read_server st
      = ([], { st with connected := false, log := st.log ++ [ERROR_LOST_CONNECTION] }) := by
  obtain ⟨stream, conn, cl, sh, lg⟩ := st
  simp only at h
  subst h
  rfl

/-- C9: if the 4-byte length read comes back with 0 bytes (clean peer
shutdown), `read_server` flips `connected` off after logging the lost
connection, the receive loop returns immediately (it terminates), and
the loop's result is a normal return — no exception reaches its caller,
whatever the frame handler is. -/
theorem read_loop_clean_shutdown {α : Type} (handle : List Nat → α → Except PyError α)
    (net : NetState) (app : α) (hconn : net.connected = true) (hstream : net.stream = []) :
    read_loop handle net app
      = .ok ({ net with connected := false, log := net.log ++ [ERROR_LOST_CONNECTION] }, app) := by
  rw [read_loop]
  rw [read_server_empty_stream net hstream]
  simp [hconn]

/-- Witness for C9 at a concrete connected state with an immediately
closed peer. -/
theorem read_loop_clean_shutdown_witness :
    read_loop (fun _ a => Except.ok a) ⟨[], true, 0, 0, []⟩ ()
      = .ok (⟨[], false, 0, 0, [ERROR_LOST_CONNECTION]⟩, ()) :=
  read_loop_clean_shutdown (fun _ a => Except.ok a) ⟨[], true, 0, 0, []⟩ () rfl rfl

/-- C10: a frame whose 4 length bytes decode to 0 makes `read_server`
behave exactly like a lost connection — same empty return value, same
`connected = false`, same `ERROR_LOST_CONNECTION` log entry — so at the
public interface it is indistinguishable from a clean peer shutdown
(only the residual unread stream differs). -/
theorem zero_length_frame (st : NetState) (rest : List Nat)
    (h : st.stream = 0 :: 0 :: 0 :: 0 :: rest) :
    read_server st
      = ([], { st with stream := rest, connected := false, log := st.log ++ [ERROR_LOST_CONNECTION] })
    ∧ (read_server { st with stream := [] }).1 = []
    ∧ (read_server { st with stream := [] }).2.connected = false
    ∧ (read_server { st with stream := [] }).2.log
      = st.log ++ [ERROR_LOST_CONNECTION] := by
  obtain ⟨stream, conn, cl, sh, lg⟩ := st
  simp only at h
  subst h
  exact ⟨rfl, rfl, rfl, rfl⟩

/-- Witness for C10: a zero-length frame followed by two live bytes. -/
theorem zero_length_frame_witness :
    read_server ⟨[0, 0, 0, 0, 9, 9], true, 0, 0, []⟩
      = ([], ⟨[9, 9], false, 0, 0, [ERROR_LOST_CONNECTION]⟩) :=
  (zero_length_frame ⟨[0, 0, 0, 0, 9, 9], true, 0, 0, []⟩ [9, 9] rfl).1

/-! ### C8: disconnect idempotence and socket closing -/

/-- C8, amended: a second disconnect on an already-disconnected session
is a no-op (no error, no repeated shutdown/close, state unchanged); the
user-initiated disconnect and the process-shutdown cleanup each close
the socket exactly once when connected; but — contrary to the claim's
"closed exactly once on any disconnect path" — the loop-initiated path
(`read_server` on error or peer close) never calls `close` or
`shutdown` at all. -/
theorem disconnect_idempotent (st : NetState) :
    (st.connected = false → do_disconnect st = st)
    ∧ do_disconnect (do_disconnect st) = do_disconnect st
    ∧ (st.connected = true →
        (do_disconnect st).closes = st.closes + 1
        ∧ (do_disconnect st).shutdowns = st.shutdowns + 1
        ∧ (do_disconnect st).connected = false)
    ∧ shutdown_cleanup st = do_disconnect st
    ∧ (∀ st' : NetState,
        (read_server st').2.closes = st'.closes
        ∧ (read_server st').2.shutdowns = st'.shutdowns) := by
  refine ⟨?_, ?_, ?_, ?_, ?_⟩
  · intro h
    unfold do_disconnect
    rw [h]
    rfl
  · by_cases h : st.connected
    · unfold do_disconnect
      simp [h]
    · unfold do_disconnect
      simp [h]
  · intro h
    unfold do_disconnect
    rw [h]
    exact ⟨rfl, rfl, rfl⟩
  · unfold do_disconnect shutdown_cleanup
    rfl
  · intro st'
    simp only [read_server]
    split <;> exact ⟨rfl, rfl⟩

/-- Witness for C8's amended theorem: idempotence on a disconnected
state, and a single close from a connected one. -/
theorem disconnect_idempotent_witness :
    do_disconnect ⟨[], false, 3, 4, []⟩ = ⟨[], false, 3, 4, []⟩
    ∧ (do_disconnect ⟨[], true, 0, 0, []⟩).closes = 1 := by
  refine ⟨(disconnect_idempotent ⟨[], false, 3, 4, []⟩).1 rfl, ?_⟩
  exact ((disconnect_idempotent ⟨[], true, 0, 0, []⟩).2.2.1 rfl).1

/-- C8, counterexample to the claim as stated: a loop-initiated
disconnect (peer closed while 5 closes/shutdowns have happened
historically) transitions the session to disconnected without closing
the socket: the close count stays 5 instead of increasing by one, and
the receive loop exits leaving the socket unclosed. -/
theorem disconnect_loop_no_close_counterexample :
    (read_server ⟨[], true, 5, 5, []⟩).2.connected = false
    ∧ (read_server ⟨[], true, 5, 5, []⟩).2.closes = 5
    ∧ read_loop (fun (_ : List Nat) (a : Unit) => Except.ok a) ⟨[], true, 5, 5, []⟩ ()
      = .ok (⟨[], false, 5, 5, [ERROR_LOST_CONNECTION]⟩, ()) := by
  refine ⟨rfl, rfl, ?_⟩
  rw [read_loop]
  rfl

/-! ### C6: registry lemmas and view routing -/

theorem dictGet_eq_none_iff (r : Registry) (k : String) :
    dictGet r k = none ↔ ∀ p ∈ r, p.1 ≠ k := by
  induction r with
  | nil => simp [dictGet]
  | cons q rest ih =>
    by_cases hq : q.1 = k
    · simp [dictGet, hq]
    · simp [dictGet, hq, ih]

theorem dictGet_some_mem (r : Registry) (k : String) (cv : ContactView)
    (h : dictGet r k = some cv) : k ∈ r.map Prod.fst := by
  induction r with
  | nil => simp [dictGet] at h
  | cons q rest ih =>
    by_cases hq : q.1 = k
    · simp [hq]
    · simp only [dictGet, if_neg hq] at h
      simp [ih h]

theorem add_message_to_keys (r : Registry) (k : String) (vm : ViewMessage) :
    (add_message_to r k vm).map Prod.fst = r.map Prod.fst := by
  induction r with
  | nil => rfl
  | cons q rest ih =>
    simp only [add_message_to, List.map_cons, ih]
    congr 1
    split <;> rfl

theorem add_message_to_length (r : Registry) (k : String) (vm : ViewMessage) :
    (add_message_to r k vm).length = r.length := by
  induction r with
  | nil => rfl
  | cons q rest ih => simp only [add_message_to, List.length_cons, ih]

theorem dictGet_add_message (r : Registry) (k : String) (vm : ViewMessage) :
    dictGet (add_message_to r k vm) k
      = (dictGet r k).map fun cv => { cv with content := cv.content ++ [vm] } := by
  induction r with
  | nil => rfl
  | cons q rest ih =>
    by_cases hq : q.1 = k
    · simp [add_message_to, dictGet, hq]
    · simp only [add_message_to, if_neg hq, dictGet, if_neg hq, ih]

theorem dictGet_add_message_ne (r : Registry) (k k' : String) (vm : ViewMessage)
    (hne : k' ≠ k) :
    dictGet (add_message_to r k vm) k' = dictGet r k' := by
  induction r with
  | nil => rfl
  | cons q rest ih =>
    by_cases hq : q.1 = k
    · have hq' : ¬ q.1 = k' := by
        intro hh
        exact hne (by rw [← hh, hq])
      simp only [add_message_to, if_pos hq, dictGet, if_neg hq', ih]
    · by_cases hq' : q.1 = k'
      · simp only [add_message_to, if_neg hq, dictGet, if_pos hq']
      · simp only [add_message_to, if_neg hq, dictGet, if_neg hq', ih]

theorem add_message_to_absent (r : Registry) (k : String) (vm : ViewMessage)
    (h : ∀ p ∈ r, p.1 ≠ k) : add_message_to r k vm = r := by
  induction r with
  | nil => rfl
  | cons q rest ih =>
    simp only [add_message_to, if_neg (h q (by simp))]
    rw [ih fun p hp => h p (by simp [hp])]

theorem add_message_to_append (r1 r2 : Registry) (k : String) (vm : ViewMessage) :
    add_message_to (r1 ++ r2) k vm = add_message_to r1 k vm ++ add_message_to r2 k vm := by
  induction r1 with
  | nil => rfl
  | cons q rest ih => simp [add_message_to, ih]

theorem dictGet_none_not_mem (r : Registry) (k : String) (h : dictGet r k = none) :
    k ∉ r.map Prod.fst := by
  intro hk
  obtain ⟨p, hp, hpk⟩ := List.mem_map.mp hk
  exact (dictGet_eq_none_iff r k).mp h p hp hpk

/-- C6: routing a decoded inbound message.  If its id is absent from the
registry, exactly one new `ContactView` is appended whose key, id,
display name (and address) all equal that id, holding the message as its
only element.  If the id is present, the stored view is reused: the
registry's size is unchanged, the message is appended after that view's
existing messages (display name untouched), and every other entry is
untouched.  Either way the id afterwards resolves to exactly one
registry entry and keys stay unique. -/
theorem receive_routes (vm : ViewMessage) (st : AppState)
    (hnodup : (st.contact_views.map Prod.fst).Nodup) :
    (dictGet st.contact_views vm.related_view_id = none →
      (route_message vm st).contact_views
        = st.contact_views
          ++ [(vm.related_view_id,
              ⟨vm.related_view_id, vm.related_view_id, vm.related_view_id, [vm]⟩)])
    ∧ (∀ cv : ContactView, dictGet st.contact_views vm.related_view_id = some cv →
        (route_message vm st).contact_views.length = st.contact_views.length
        ∧ dictGet (route_message vm st).contact_views vm.related_view_id
          = some ⟨cv.view_id, cv.display_name, cv.address, cv.content ++ [vm]⟩
        ∧ ∀ k : String, k ≠ vm.related_view_id →
            dictGet (route_message vm st).contact_views k = dictGet st.contact_views k)
    ∧ ((route_message vm st).contact_views.map Prod.fst).count vm.related_view_id = 1
    ∧ ((route_message vm st).contact_views.map Prod.fst).Nodup := by
  rcases hopt : dictGet st.contact_views vm.related_view_id with _ | cv0
  · have hmem : dictMember st.contact_views vm.related_view_id = false := by
      simp [dictMember, hopt]
    have hroute : (route_message vm st).contact_views
        = st.contact_views
          ++ [(vm.related_view_id,
              ⟨vm.related_view_id, vm.related_view_id, vm.related_view_id, [vm]⟩)] := by
      simp only [route_message, hmem, Bool.false_eq_true, if_false, add_message_to_append,
        add_message_to_absent _ _ _ ((dictGet_eq_none_iff _ _).mp hopt), add_message_to,
        if_pos rfl]
      simp
    have hid : vm.related_view_id ∉ st.contact_views.map Prod.fst :=
      dictGet_none_not_mem _ _ hopt
    refine ⟨fun _ => hroute, ?_, ?_, ?_⟩
    · intro cv hsome
      exact absurd hsome (by simp)
    · rw [hroute]
      simp only [List.map_append, List.count_append, List.map_cons, List.map_nil]
      rw [List.count_eq_zero.mpr hid]
      simp
    · rw [hroute]
      simp only [List.map_append, List.map_cons, List.map_nil]
      refine List.Nodup.append hnodup (List.nodup_singleton _) ?_
      intro x hx hx'
      simp only [List.mem_singleton] at hx'
      subst hx'
      exact hid hx
  · have hmem : dictMember st.contact_views vm.related_view_id = true := by
      simp [dictMember, hopt]
    have hroute : (route_message vm st).contact_views
        = add_message_to st.contact_views vm.related_view_id vm := by
      simp only [route_message, hmem, if_true]
    have hkeys : ((route_message vm st).contact_views.map Prod.fst)
        = st.contact_views.map Prod.fst := by
      rw [hroute, add_message_to_keys]
    refine ⟨?_, ?_, ?_, ?_⟩
    · intro h
      exact absurd h (by simp)
    · intro cv hsome
      have hcv : cv0 = cv := by injection hsome
      subst hcv
      refine ⟨by rw [hroute, add_message_to_length], ?_, ?_⟩
      · rw [hroute, dictGet_add_message, hopt]
        rfl
      · intro k hk
        rw [hroute, dictGet_add_message_ne _ _ _ _ hk]
    · rw [hkeys]
      exact List.count_eq_one_of_mem hnodup (dictGet_some_mem _ _ _ hopt)
    · rw [hkeys]
      exact hnodup

/-- Witness for C6 at the spec's scenario: the registry already holds
`"555-1234"` with display name `"Alice"`; routing an incoming message
reuses that entry (size stays 1) and appends the message after the
existing one, keeping the display name. -/
theorem receive_routes_witness :
    (route_message ⟨"12:00:00", "hello", "555-1234", "Alice", TYPE_INCOMING⟩
        ⟨[("555-1234",
           ⟨"555-1234", "Alice", "555-1234",
            [⟨"11:00:00", "old", "555-1234", "Alice", TYPE_INCOMING⟩]⟩)],
          []⟩).contact_views.length = 1
    ∧ dictGet (route_message ⟨"12:00:00", "hello", "555-1234", "Alice", TYPE_INCOMING⟩
        ⟨[("555-1234",
           ⟨"555-1234", "Alice", "555-1234",
            [⟨"11:00:00", "old", "555-1234", "Alice", TYPE_INCOMING⟩]⟩)],
          []⟩).contact_views "555-1234"
      = some ⟨"555-1234", "Alice", "555-1234",
          [⟨"11:00:00", "old", "555-1234", "Alice", TYPE_INCOMING⟩,
           ⟨"12:00:00", "hello", "555-1234", "Alice", TYPE_INCOMING⟩]⟩ := by
  have h := (receive_routes ⟨"12:00:00", "hello", "555-1234", "Alice", TYPE_INCOMING⟩
    ⟨[("555-1234",
       ⟨"555-1234", "Alice", "555-1234",
        [⟨"11:00:00", "old", "555-1234", "Alice", TYPE_INCOMING⟩]⟩)],
      []⟩ (by simp)).2.1
    ⟨"555-1234", "Alice", "555-1234",
      [⟨"11:00:00", "old", "555-1234", "Alice", TYPE_INCOMING⟩]⟩ (by simp [dictGet])
  exact ⟨h.1, h.2.1⟩

/-! ### C7: the encode/decode round trip

The key structural fact: every successful match of `'%I:%M:%S %p'`
consumes a literal space, so a client-side timestamp
(`'%H:%M:%S'` — digits and colons only) can never decode. -/

theorem firstSome_eq_some {α β : Type} (f : α → Option β) :
    ∀ (l : List α) (b : β), firstSome l f = some b → ∃ a, a ∈ l ∧ f a = some b := by
  intro l
  induction l with
  | nil => intro b h; simp [firstSome] at h
  | cons a t ih =>
    intro b h
    cases hfa : f a with
    | some b' =>
      have hb : b' = b := by
        simp only [firstSome, hfa] at h
        exact Option.some.inj h
      subst hb
      exact ⟨a, by simp, hfa⟩
    | none =>
      simp only [firstSome, hfa] at h
      obtain ⟨a', ha', hfa'⟩ := ih b h
      exact ⟨a', by simp [ha'], hfa'⟩

theorem expectChar_eq_some (c : Char) (l t : List Char) (h : expectChar c l = some t) :
    l = c :: t := by
  cases l with
  | nil => simp [expectChar] at h
  | cons a t' =>
    by_cases hac : a = c
    · simp only [expectChar, if_pos hac] at h
      rw [hac, Option.some.inj h]
    · simp [expectChar, hac] at h

theorem mem_ite_singleton {α : Type} {c : Prop} [Decidable c] {x p : α}
    (h : p ∈ if c then [x] else []) : p = x := by
  split at h
  · simpa using h
  · simp at h

theorem altsS_rest_subset (l : List Char) (p : Nat × List Char) (hp : p ∈ altsS l) :
    ∀ c ∈ p.2, c ∈ l := by
  intro c hc
  match l with
  | [] => simp [altsS] at hp
  | [a] =>
    rw [mem_ite_singleton hp] at hc
    simp at hc
  | a :: b :: t =>
    simp only [altsS, List.mem_append] at hp
    rcases hp with (hp | hp) | hp
    · rw [mem_ite_singleton hp] at hc
      simp [hc]
    · rw [mem_ite_singleton hp] at hc
      simp [hc]
    · rw [mem_ite_singleton hp] at hc
      simp only [List.mem_cons] at hc ⊢
      tauto

theorem altsM_rest_subset (l : List Char) (p : Nat × List Char) (hp : p ∈ altsM l) :
    ∀ c ∈ p.2, c ∈ l := by
  intro c hc
  match l with
  | [] => simp [altsM] at hp
  | [a] =>
    rw [mem_ite_singleton hp] at hc
    simp at hc
  | a :: b :: t =>
    simp only [altsM, List.mem_append] at hp
    rcases hp with hp | hp
    · rw [mem_ite_singleton hp] at hc
      simp [hc]
    · rw [mem_ite_singleton hp] at hc
      simp only [List.mem_cons] at hc ⊢
      tauto

theorem altsI_rest_subset (l : List Char) (p : Nat × List Char) (hp : p ∈ altsI l) :
    ∀ c ∈ p.2, c ∈ l := by
  intro c hc
  match l with
  | [] => simp [altsI] at hp
  | [a] =>
    rw [mem_ite_singleton hp] at hc
    simp at hc
  | a :: b :: t =>
    simp only [altsI, List.mem_append] at hp
    rcases hp with (hp | hp) | hp
    · rw [mem_ite_singleton hp] at hc
      simp [hc]
    · rw [mem_ite_singleton hp] at hc
      simp [hc]
    · rw [mem_ite_singleton hp] at hc
      simp only [List.mem_cons] at hc ⊢
      tauto

theorem matchTail2_space (l : List Char) (r : Nat × Bool × List Char)
    (h : matchTail2 l = some r) : ' ' ∈ l := by
  obtain ⟨sr, hsr, hf⟩ := firstSome_eq_some _ _ _ h
  cases hex : expectChar ' ' sr.2 with
  | none => rw [hex] at hf; simp at hf
  | some l2 =>
    exact altsS_rest_subset l sr hsr ' ' (by rw [expectChar_eq_some _ _ _ hex]; simp)

theorem matchTail1_space (l : List Char) (r : Nat × Nat × Bool × List Char)
    (h : matchTail1 l = some r) : ' ' ∈ l := by
  obtain ⟨mr, hmr, hf⟩ := firstSome_eq_some _ _ _ h
  cases hex : expectChar ':' mr.2 with
  | none => rw [hex] at hf; simp at hf
  | some l2 =>
    rw [hex] at hf
    simp only [Option.bind] at hf
    cases hmt : matchTail2 l2 with
    | none => rw [hmt] at hf; simp at hf
    | some r2 =>
      have hsp : ' ' ∈ l2 := matchTail2_space l2 r2 hmt
      exact altsM_rest_subset l mr hmr ' '
        (by rw [expectChar_eq_some _ _ _ hex]; simp [hsp])

theorem matchRemoteFormat_space (l : List Char) (r : Nat × Nat × Nat × Bool × List Char)
    (h : matchRemoteFormat l = some r) : ' ' ∈ l := by
  obtain ⟨ir, hir, hf⟩ := firstSome_eq_some _ _ _ h
  cases hex : expectChar ':' ir.2 with
  | none => rw [hex] at hf; simp at hf
  | some l2 =>
    rw [hex] at hf
    simp only [Option.bind] at hf
    cases hmt : matchTail1 l2 with
    | none => rw [hmt] at hf; simp at hf
    | some r2 =>
      have hsp : ' ' ∈ l2 := matchTail1_space l2 r2 hmt
      exact altsI_rest_subset l ir hir ' '
        (by rw [expectChar_eq_some _ _ _ hex]; simp [hsp])

theorem strptimeRemote_needs_space (s : String) (h : ' ' ∉ s.data) :
    strptimeRemote s = none := by
  unfold strptimeRemote
  cases hm2 : matchRemoteFormat s.data with
  | none => rfl
  | some r => exact absurd (matchRemoteFormat_space _ _ hm2) h

theorem digitChar_ne_space : ∀ d : Nat, d < 10 → Nat.digitChar d ≠ ' ' := by decide

theorem fmtHMS_no_space (h m s : Nat) (hh : h < 24) (hm2 : m < 60) (hs : s < 60) :
    ' ' ∉ (fmtHMS h m s).data := by
  intro hmem
  simp [fmtHMS, two] at hmem
  rcases hmem with h1 | h1 | h1 | h1 | h1 | h1 <;>
    first
      | exact absurd h1 (by decide)
      | exact digitChar_ne_space _ (by omega) h1.symm

theorem format_time_client_none (h m s : Nat) (hh : h < 24) (hm2 : m < 60) (hs : s < 60) :
    format_time (fmtHMS h m s) = none := by
  unfold format_time
  rw [strptimeRemote_needs_space _ (fmtHMS_no_space h m s hh hm2 hs)]
  rfl

theorem decode_display_name_ok (reg : Registry) (o : JsonMessage) (ty : MType)
    (cid : String) (hio : o.relatedContactId = some cid) (e : PyError) :
    decode_display_name reg o ty ≠ .error e := by
  unfold decode_display_name
  by_cases hty : ty = TYPE_OUTGOING
  · simp [hty, pure, Except.pure]
  · simp only [hty, if_false, getField, hio, Bind.bind, Except.bind]
    cases dictGet reg cid <;> simp [pure, Except.pure]

theorem decode_encode_valueError (reg : Registry) (vm : ViewMessage)
    (hft : format_time vm.message_time = none) :
    json_to_view_message reg (.obj (view_message_to_json vm)) = .error .valueError := by
  cases hdn : decode_display_name reg (view_message_to_json vm) vm.message_type with
  | error e =>
    exact absurd hdn (decode_display_name_ok reg _ _ vm.related_view_id rfl e)
  | ok dn =>
    unfold view_message_to_json at hdn
    simp only [json_to_view_message, view_message_to_json, getField, Bind.bind, Except.bind,
      hdn, hft]

theorem decode_ok_fields (reg : Registry) (o : JsonMessage) (vm' : ViewMessage)
    (h : json_to_view_message reg (.obj o) = .ok vm') :
    o.body = some vm'.body
    ∧ o.relatedContactId = some vm'.related_view_id
    ∧ o.smsMessageType = some vm'.message_type := by
  obtain ⟨tf, bf, idf, tyf⟩ := o
  cases tyf with
  | none => simp [json_to_view_message, getField, Bind.bind, Except.bind] at h
  | some ty =>
    cases hdn : decode_display_name reg ⟨tf, bf, idf, some ty⟩ ty with
    | error e =>
      simp [json_to_view_message, getField, Bind.bind, Except.bind, hdn] at h
    | ok dn =>
      cases tf with
      | none => simp [json_to_view_message, getField, Bind.bind, Except.bind, hdn] at h
      | some t =>
        cases hft : format_time t with
        | none =>
          simp [json_to_view_message, getField, Bind.bind, Except.bind, hdn, hft] at h
        | some ft =>
          cases bf with
          | none =>
            simp [json_to_view_message, getField, Bind.bind, Except.bind, hdn, hft] at h
          | some b =>
            cases idf with
            | none =>
              simp [json_to_view_message, getField, Bind.bind, Except.bind, hdn, hft] at h
            | some id =>
              simp only [json_to_view_message, getField, Bind.bind, Except.bind, hdn,
                hft] at h
              injection h with h1
              subst h1
              exact ⟨rfl, rfl, rfl⟩

/-- C7, counterexample to the claim as stated: encoding a client
message whose timestamp is in the client's own 24-hour format
(`"14:30:00"`, as `send_message` stamps it) and decoding it back does
not succeed — `format_time` raises `ValueError` because it only parses
the remote 12-hour `'%I:%M:%S %p'` format. -/
theorem round_trip_counterexample :
    json_to_view_message []
      (.obj (view_message_to_json ⟨"14:30:00", "hi", "555-1234", "Me", TYPE_OUTGOING⟩))
      = .error .valueError := rfl

/-- C7, amended: the wire object built by `view_message_to_json`
carries `body`, `relatedContactId` and `smsMessageType` verbatim, and
any successful decode returns them verbatim; but decoding a
client-produced encoding never succeeds: for every message stamped with
the client's `'%H:%M:%S'` format, `json_to_view_message` fails with
`ValueError` from `format_time`, whatever the registry. -/
theorem round_trip_amended (reg : Registry) (vm : ViewMessage) (h m s : Nat)
    (hh : h < 24) (hm2 : m < 60) (hs : s < 60) (ht : vm.message_time = fmtHMS h m s) :
    json_to_view_message reg (.obj (view_message_to_json vm)) = .error .valueError
    ∧ (view_message_to_json vm).body = some vm.body
    ∧ (view_message_to_json vm).relatedContactId = some vm.related_view_id
    ∧ (view_message_to_json vm).smsMessageType = some vm.message_type
    ∧ (∀ (o : JsonMessage) (vm' : ViewMessage),
        json_to_view_message reg (.obj o) = .ok vm' →
        o.body = some vm'.body
        ∧ o.relatedContactId = some vm'.related_view_id
        ∧ o.smsMessageType = some vm'.message_type) := by
  refine ⟨?_, rfl, rfl, rfl, fun o vm' hok => decode_ok_fields reg o vm' hok⟩
  exact decode_encode_valueError reg vm
    (by rw [ht]; exact format_time_client_none h m s hh hm2 hs)

/-- Witness for C7's amended theorem at a concrete outgoing message
stamped `"23:05:09"`. -/
theorem round_trip_amended_witness :
    json_to_view_message []
      (.obj (view_message_to_json ⟨"23:05:09", "hello", "42", "Me", TYPE_OUTGOING⟩))
      = .error .valueError :=
  (round_trip_amended [] ⟨"23:05:09", "hello", "42", "Me", TYPE_OUTGOING⟩ 23 5 9
    (by decide) (by decide) (by decide) rfl).1

end Smscli
